import Mathlib

/-!
Verification of the BGE-Large embedding service
(src/embedding-service/server.py).

Shallow embedding conventions:
* JSON values are the inductive type `Json`; numbers are modelled as
  integers (no claim depends on fractional values).  A parsed Python
  dict is an association list of fields in insertion order, with unique
  keys.
* The sentence-transformer model is an opaque parameter
  `encode : Json → Json → Option Json → Except String (List (List Int))`
  taking the raw (unvalidated) texts, normalize and batch-size arguments
  exactly as the handlers pass them (the batch-size argument is `none`
  when the handler omits it, as `/embed` does), and returning either the
  list of embedding row vectors (`embeddings.tolist()`) or the message
  of the raised exception.
* A request body arrives as `Except String Json`: `Except.error`
  models a body that Flask fails to parse as JSON (absent body,
  non-JSON content), carrying the message of the exception raised by
  `request.json`, which the route's generic handler turns into a 500.
-/

inductive Json : Type where
  | null : Json
  | bool : Bool → Json
  | num : Int → Json
  | str : String → Json
  | arr : List Json → Json
  | obj : List (String × Json) → Json
deriving Repr

/-- `dict.get(k)` on the field list of a parsed JSON object. -/
def lookupField : List (String × Json) → String → Option Json
  | [], _ => none
  | (key, v) :: rest, k => if key = k then some v else lookupField rest k

/-- Python falsiness of a JSON value: `not x`. -/
def pyFalsy : Json → Bool
  | .null => true
  | .bool b => !b
  | .num n => n == 0
  | .str s => s == ""
  | .arr xs => xs.isEmpty
  | .obj fs => fs.isEmpty

/-- `isinstance(x, list)` on a JSON value. -/
def isList : Json → Bool
  | .arr _ => true
  | _ => false

/-- Whether the parsed body is a Python dict (so that `.get` exists). -/
def isObj : Json → Bool
  | .obj _ => true
  | _ => false

def pyTypeName : Json → String
  | .null => "NoneType"
  | .bool _ => "bool"
  | .num _ => "int"
  | .str _ => "str"
  | .arr _ => "list"
  | .obj _ => "dict"

/-- Message of the AttributeError raised by `data.get(...)` when the
parsed body is not a dict (e.g. a JSON `null` body). -/
def noAttrGet (j : Json) : String :=
  pyTypeName j ++ " object has no attribute get"

/-- The opaque model wrapper: arguments are the raw texts value, the raw
normalize value and the optional raw batch-size value, in that order. -/
def Encode : Type :=
  Json → Json → Option Json → Except String (List (List Int))

structure HttpResponse where
  status : Nat
  body : Json
deriving Repr

/-- `jsonify({"error": msg}), code`. -/
def errorResponse (msg : String) (code : Nat) : HttpResponse :=
  { status := code, body := Json.obj [("error", Json.str msg)] }

/-- One row of `embeddings.tolist()` serialized to JSON. -/
def vecToJson (v : List Int) : Json := Json.arr (v.map Json.num)

/-- The 200 response built by both embed routes:
`{"embeddings": ..., "dimensions": 1024, "count": len(embeddings)}`. -/
def successResponse (vs : List (List Int)) : HttpResponse :=
  { status := 200,
    body := Json.obj
      [ ("embeddings", Json.arr (vs.map vecToJson)),
        ("dimensions", Json.num 1024),
        ("count", Json.num vs.length) ] }

/-- The `model.encode(...)` call together with the success return and
the route's generic exception handler (`except Exception` → 500). -/
def runEncode (encode : Encode) (texts normalize : Json)
    (batchSize : Option Json) : HttpResponse :=
  match encode texts normalize batchSize with
  | .ok vs => successResponse vs
  | .error e => errorResponse e 500

/-- The single-string-to-list conversion of the embed route:
`if isinstance(text, str): text = [text]`. -/
def normalizeText : Json → Json
  | .str s => Json.arr [Json.str s]
  | j => j

def missingTextMsg : String := "Missing \x27text\x27 field"

def missingTextsMsg : String := "Missing or invalid \x27texts\x27 field"

/-- `GET /health`. -/
def health : HttpResponse :=
  { status := 200,
    body := Json.obj
      [ ("status", Json.str "healthy"),
        ("model", Json.str "BGE-large-en-v1.5"),
        ("dimensions", Json.num 1024) ] }

/-- `POST /embed`.  The source calls `model.encode` without a batch-size
argument, reflected here by passing `none`. -/
def embed (encode : Encode) (data : Except String Json) : HttpResponse :=
  match data with
  | .error e => errorResponse e 500
  | .ok (Json.obj fs) =>
    let normalize := (lookupField fs "normalize").getD (Json.bool true)
    match lookupField fs "text" with
    | none => errorResponse missingTextMsg 400
    | some t =>
      if pyFalsy t then errorResponse missingTextMsg 400
      else runEncode encode (normalizeText t) normalize none
  | .ok j => errorResponse (noAttrGet j) 500

/-- `POST /embed/batch`. -/
def embed_batch (encode : Encode) (data : Except String Json) : HttpResponse :=
  match data with
  | .error e => errorResponse e 500
  | .ok (Json.obj fs) =>
    let batchSize := (lookupField fs "batch_size").getD (Json.num 32)
    match lookupField fs "texts" with
    | none => errorResponse missingTextsMsg 400
    | some ts =>
      if pyFalsy ts || !(isList ts) then errorResponse missingTextsMsg 400
      else runEncode encode ts (Json.bool true) (some batchSize)
  | .ok j => errorResponse (noAttrGet j) 500

/-- Removal of one key from a field list, for stating that a request
field is ignored. -/
def removeKey (k : String) : List (String × Json) → List (String × Json)
  | [] => []
  | (key, v) :: rest =>
    if key = k then removeKey k rest else (key, v) :: removeKey k rest

/-! ### Concrete encoders used to instantiate hypotheses -/

/-- A concrete model instance: one 1024-entry zero vector per input
element, failing on non-list input (as the wrapper contract allows). -/
def encodeStub : Encode := fun texts _ _ =>
  match texts with
  | Json.arr ts => Except.ok (ts.map fun _ => List.replicate 1024 0)
  | _ => Except.error "encode failure"

/-- A concrete model instance that always fails. -/
def encodeFail : Encode := fun _ _ _ => Except.error "boom"

theorem encodeStub_spec (texts normalize : Json) (batchSize : Option Json)
    (vs : List (List Int)) (h : encodeStub texts normalize batchSize = Except.ok vs) :
    ∃ ts, texts = Json.arr ts ∧ vs.length = ts.length ∧
      ∀ v ∈ vs, v.length = 1024 := by
  cases texts with
  | arr ts =>
    have h3 : ts.map (fun _ => List.replicate 1024 (0 : Int)) = vs :=
      Except.ok.inj h
    refine ⟨ts, rfl, ?_, ?_⟩
    · rw [← h3, List.length_map]
    · intro v hv
      rw [← h3] at hv
      obtain ⟨x, hx, hv⟩ := List.mem_map.mp hv
      rw [← hv, List.length_replicate]
  | null => exact Except.noConfusion h
  | bool b => exact Except.noConfusion h
  | num n => exact Except.noConfusion h
  | str s => exact Except.noConfusion h
  | obj fs => exact Except.noConfusion h

/-! ### Claim theorems -/

/-- C3: a `POST /embed` body lacking the `text` field, or whose `text`
is the empty string or the empty sequence, yields HTTP 400 with body
`{"error": "Missing 'text' field"}`, and the model is never invoked
(the response does not depend on `encode` at all). -/
theorem embed_missing_text_400 (encode : Encode) (fs : List (String × Json))
    (h : lookupField fs "text" = none ∨
      lookupField fs "text" = some (Json.str "") ∨
      lookupField fs "text" = some (Json.arr [])) :
    embed encode (Except.ok (Json.obj fs)) = errorResponse missingTextMsg 400 := by
  rcases h with h | h | h <;> simp [embed, h, pyFalsy]

theorem embed_missing_text_400_witness :
    embed encodeStub (Except.ok (Json.obj [])) = errorResponse missingTextMsg 400 :=
  embed_missing_text_400 encodeStub [] (Or.inl rfl)

/-- C5: a `POST /embed/batch` body whose `texts` field is missing, not a
sequence, or an empty sequence yields HTTP 400 with an ErrorResponse
body, and the model is never invoked (the response does not depend on
`encode`). -/
theorem embed_batch_invalid_texts_400 (encode : Encode) (fs : List (String × Json))
    (h : lookupField fs "texts" = none ∨
      (∃ t, lookupField fs "texts" = some t ∧ isList t = false) ∨
      lookupField fs "texts" = some (Json.arr [])) :
    embed_batch encode (Except.ok (Json.obj fs)) =
      errorResponse missingTextsMsg 400 := by
  rcases h with h | ⟨t, h, ht⟩ | h
  · simp [embed_batch, h]
  · simp [embed_batch, h, ht]
  · simp [embed_batch, h, pyFalsy]

theorem embed_batch_invalid_texts_400_witness :
    embed_batch encodeStub (Except.ok (Json.obj [("texts", Json.str "a")])) =
      errorResponse missingTextsMsg 400 :=
  embed_batch_invalid_texts_400 encodeStub [("texts", Json.str "a")]
    (Or.inr (Or.inl ⟨Json.str "a", rfl, rfl⟩))

/-- C8: `GET /health` always returns HTTP 200 with exactly the fixed
body `{"status": "healthy", "model": "BGE-large-en-v1.5",
"dimensions": 1024}`; the handler takes no input and has no failure
branch. -/
theorem health_fixed_response :
    health.status = 200 ∧
    health.body = Json.obj
      [ ("status", Json.str "healthy"),
        ("model", Json.str "BGE-large-en-v1.5"),
        ("dimensions", Json.num 1024) ] :=
  ⟨rfl, rfl⟩

/-- C9: a `POST /embed` or `POST /embed/batch` request whose body is not
a JSON object — unparseable or absent body (the `Except.error` case) or
a parsed non-dict value such as JSON `null` — is answered with HTTP 500
and an error-message body, produced by the generic exception handler,
never with a 400 ValidationError. -/
theorem malformed_body_500 :
    (∀ (encode : Encode) (e : String),
      embed encode (Except.error e) = errorResponse e 500 ∧
      embed_batch encode (Except.error e) = errorResponse e 500) ∧
    (∀ (encode : Encode) (j : Json), isObj j = false →
      embed encode (Except.ok j) = errorResponse (noAttrGet j) 500 ∧
      embed_batch encode (Except.ok j) = errorResponse (noAttrGet j) 500) ∧
    (∀ msg : String, (errorResponse msg 500).status = 500 ∧
      (errorResponse msg 500).status ≠ 400 ∧
      (errorResponse msg 500).body = Json.obj [("error", Json.str msg)]) := by
  refine ⟨fun encode e => ⟨rfl, rfl⟩, fun encode j hj => ?_, fun msg => ⟨rfl, by simp [errorResponse], rfl⟩⟩
  cases j <;> simp_all [isObj] <;> exact ⟨rfl, rfl⟩

theorem malformed_body_500_witness :
    embed encodeStub (Except.ok Json.null) = errorResponse (noAttrGet Json.null) 500 ∧
    embed_batch encodeStub (Except.ok Json.null) = errorResponse (noAttrGet Json.null) 500 :=
  malformed_body_500.2.1 encodeStub Json.null rfl

theorem lookupField_removeKey (k k2 : String) (h : k2 ≠ k)
    (fs : List (String × Json)) :
    lookupField (removeKey k fs) k2 = lookupField fs k2 := by
  induction fs with
  | nil => rfl
  | cons p rest ih =>
    obtain ⟨key, v⟩ := p
    by_cases hk : key = k
    · subst hk
      simp [removeKey, lookupField, Ne.symm h, ih]
    · by_cases h2 : key = k2
      · subst h2
        simp [removeKey, lookupField, hk]
      · simp [removeKey, lookupField, hk, h2, ih]

/-- C2: `/embed/batch` always calls the model with the normalize flag
`True` (the response is unchanged if the encoder is replaced by one
that ignores its normalize argument and uses `True`), so two batch
bodies that agree outside their `normalize` field — including one with
an explicit `normalize: false` — produce identical responses. -/
theorem embed_batch_ignores_normalize :
    (∀ (encode : Encode) (data : Except String Json),
      embed_batch encode data =
        embed_batch (fun t _ b => encode t (Json.bool true) b) data) ∧
    (∀ (encode : Encode) (fs1 fs2 : List (String × Json)),
      removeKey "normalize" fs1 = removeKey "normalize" fs2 →
      embed_batch encode (Except.ok (Json.obj fs1)) =
        embed_batch encode (Except.ok (Json.obj fs2))) := by
  constructor
  · intro encode data
    cases data with
    | error e => rfl
    | ok j =>
      cases j with
      | obj fs =>
        simp only [embed_batch]
        cases lookupField fs "texts" with
        | none => rfl
        | some ts => cases pyFalsy ts || !(isList ts) <;> rfl
      | null => rfl
      | bool b => rfl
      | num n => rfl
      | str s => rfl
      | arr xs => rfl
  · intro encode fs1 fs2 h
    have hts : lookupField fs1 "texts" = lookupField fs2 "texts" := by
      rw [← lookupField_removeKey "normalize" "texts" (by decide) fs1, h,
        lookupField_removeKey "normalize" "texts" (by decide) fs2]
    have hbs : lookupField fs1 "batch_size" = lookupField fs2 "batch_size" := by
      rw [← lookupField_removeKey "normalize" "batch_size" (by decide) fs1, h,
        lookupField_removeKey "normalize" "batch_size" (by decide) fs2]
    simp only [embed_batch, hts, hbs]

theorem embed_batch_ignores_normalize_witness :
    embed_batch encodeStub (Except.ok (Json.obj
      [("texts", Json.arr [Json.str "a"]), ("normalize", Json.bool false)])) =
    embed_batch encodeStub (Except.ok (Json.obj
      [("texts", Json.arr [Json.str "a"])])) :=
  embed_batch_ignores_normalize.2 encodeStub
    [("texts", Json.arr [Json.str "a"]), ("normalize", Json.bool false)]
    [("texts", Json.arr [Json.str "a"])] rfl

/-- C4: on a `/embed` body with a non-empty `text`: a single string `s`
makes the handler call the model on the one-element sequence `[s]`; a
sequence value is passed to the model unchanged.  In both cases the
response is exactly the model call's outcome. -/
theorem embed_encode_argument (encode : Encode) (fs : List (String × Json)) :
    (∀ s : String, lookupField fs "text" = some (Json.str s) → s ≠ "" →
      embed encode (Except.ok (Json.obj fs)) =
        runEncode encode (Json.arr [Json.str s])
          ((lookupField fs "normalize").getD (Json.bool true)) none) ∧
    (∀ ts : List Json, lookupField fs "text" = some (Json.arr ts) → ts ≠ [] →
      embed encode (Except.ok (Json.obj fs)) =
        runEncode encode (Json.arr ts)
          ((lookupField fs "normalize").getD (Json.bool true)) none) := by
  constructor
  · intro s h hs
    simp [embed, h, pyFalsy, normalizeText, hs]
  · intro ts h hts
    simp [embed, h, pyFalsy, normalizeText, hts]

theorem embed_encode_argument_witness :
    embed encodeStub (Except.ok (Json.obj [("text", Json.str "hello")])) =
      runEncode encodeStub (Json.arr [Json.str "hello"])
        ((lookupField [("text", Json.str "hello")] "normalize").getD
          (Json.bool true)) none :=
  (embed_encode_argument encodeStub [("text", Json.str "hello")]).1
    "hello" rfl (by decide)

/-- C6: provided the model wrapper's output does not depend on its
batch-size hint (the wrapper contract), two `/embed/batch` bodies that
agree outside their `batch_size` field — same `texts`, different
`batch_size` — produce identical responses: same embeddings, same
order, same count. -/
theorem embed_batch_size_no_effect (encode : Encode)
    (hEnc : ∀ (texts normalize : Json) (b1 b2 : Option Json),
      encode texts normalize b1 = encode texts normalize b2)
    (fs1 fs2 : List (String × Json))
    (h : removeKey "batch_size" fs1 = removeKey "batch_size" fs2) :
    embed_batch encode (Except.ok (Json.obj fs1)) =
      embed_batch encode (Except.ok (Json.obj fs2)) := by
  have hts : lookupField fs1 "texts" = lookupField fs2 "texts" := by
    rw [← lookupField_removeKey "batch_size" "texts" (by decide) fs1, h,
      lookupField_removeKey "batch_size" "texts" (by decide) fs2]
  simp only [embed_batch, hts]
  cases lookupField fs2 "texts" with
  | none => rfl
  | some ts =>
    by_cases hcond : (pyFalsy ts || !(isList ts)) = true
    · simp [hcond]
    · simp [hcond, runEncode,
        hEnc ts (Json.bool true)
          (some ((lookupField fs1 "batch_size").getD (Json.num 32)))
          (some ((lookupField fs2 "batch_size").getD (Json.num 32)))]

theorem embed_batch_size_no_effect_witness :
    embed_batch encodeStub (Except.ok (Json.obj
      [("texts", Json.arr [Json.str "a", Json.str "b"]), ("batch_size", Json.num 1)])) =
    embed_batch encodeStub (Except.ok (Json.obj
      [("texts", Json.arr [Json.str "a", Json.str "b"]), ("batch_size", Json.num 32)])) :=
  embed_batch_size_no_effect encodeStub (fun _ _ _ _ => rfl)
    [("texts", Json.arr [Json.str "a", Json.str "b"]), ("batch_size", Json.num 1)]
    [("texts", Json.arr [Json.str "a", Json.str "b"]), ("batch_size", Json.num 32)]
    rfl

/-- C7: when validation passes on either route and the model call fails
with message `e`, the response is HTTP 500 whose body is exactly
`{"error": e}` — the failure's own message text and no embeddings. -/
theorem encode_failure_500 (encode : Encode) :
    (∀ (fs : List (String × Json)) (t : Json) (e : String),
      lookupField fs "text" = some t → pyFalsy t = false →
      encode (normalizeText t)
          ((lookupField fs "normalize").getD (Json.bool true)) none =
        Except.error e →
      embed encode (Except.ok (Json.obj fs)) = errorResponse e 500 ∧
        (errorResponse e 500).body = Json.obj [("error", Json.str e)]) ∧
    (∀ (fs : List (String × Json)) (ts : Json) (e : String),
      lookupField fs "texts" = some ts → pyFalsy ts = false →
      isList ts = true →
      encode ts (Json.bool true)
          (some ((lookupField fs "batch_size").getD (Json.num 32))) =
        Except.error e →
      embed_batch encode (Except.ok (Json.obj fs)) = errorResponse e 500 ∧
        (errorResponse e 500).body = Json.obj [("error", Json.str e)]) := by
  constructor
  · intro fs t e hget hf henc
    refine ⟨?_, rfl⟩
    simp [embed, hget, hf, runEncode, henc]
  · intro fs ts e hget hf hl henc
    refine ⟨?_, rfl⟩
    simp [embed_batch, hget, hf, hl, runEncode, henc]

theorem encode_failure_500_witness :
    embed encodeFail (Except.ok (Json.obj [("text", Json.str "a")])) =
      errorResponse "boom" 500 ∧
    (errorResponse "boom" 500).body = Json.obj [("error", Json.str "boom")] :=
  (encode_failure_500 encodeFail).1 [("text", Json.str "a")]
    (Json.str "a") "boom" rfl rfl rfl

/-- C10: on a valid non-empty `texts`, any `batch_size` value of any
JSON type is passed to the model call unvalidated, defaulting to `32`
only when the field is absent; the response is the model call's
outcome, whose status is 200 or 500, never 400. -/
theorem batch_size_unvalidated (encode : Encode) :
    (∀ (fs : List (String × Json)) (ts : List Json) (bsv : Json),
      lookupField fs "texts" = some (Json.arr ts) → ts ≠ [] →
      lookupField fs "batch_size" = some bsv →
      embed_batch encode (Except.ok (Json.obj fs)) =
        runEncode encode (Json.arr ts) (Json.bool true) (some bsv)) ∧
    (∀ (fs : List (String × Json)) (ts : List Json),
      lookupField fs "texts" = some (Json.arr ts) → ts ≠ [] →
      lookupField fs "batch_size" = none →
      embed_batch encode (Except.ok (Json.obj fs)) =
        runEncode encode (Json.arr ts) (Json.bool true) (some (Json.num 32))) ∧
    (∀ (texts normalize : Json) (batchSize : Option Json),
      (runEncode encode texts normalize batchSize).status = 200 ∨
      (runEncode encode texts normalize batchSize).status = 500) := by
  refine ⟨?_, ?_, ?_⟩
  · intro fs ts bsv hts hne hbs
    cases ts with
    | nil => exact absurd rfl hne
    | cons a as => simp [embed_batch, hts, hbs, pyFalsy, isList]
  · intro fs ts hts hne hbs
    cases ts with
    | nil => exact absurd rfl hne
    | cons a as => simp [embed_batch, hts, hbs, pyFalsy, isList]
  · intro texts normalize batchSize
    cases h : encode texts normalize batchSize with
    | ok vs => left; simp [runEncode, h, successResponse]
    | error e => right; simp [runEncode, h, errorResponse]

theorem batch_size_unvalidated_witness :
    embed_batch encodeStub (Except.ok (Json.obj
      [("texts", Json.arr [Json.str "a"]), ("batch_size", Json.str "huge")])) =
      runEncode encodeStub (Json.arr [Json.str "a"]) (Json.bool true)
        (some (Json.str "huge")) :=
  (batch_size_unvalidated encodeStub).1
    [("texts", Json.arr [Json.str "a"]), ("batch_size", Json.str "huge")]
    [Json.str "a"] (Json.str "huge") rfl (List.cons_ne_nil _ _) rfl

/-- C1: under the wrapper contract — the model call succeeds only on a
sequence and then yields exactly one 1024-entry vector per input
element, in order — every 200 response of `/embed` (with its
string-to-singleton conversion) and of `/embed/batch` carries an
`embeddings` array holding one vector of exactly 1024 entries per input
text, a `count` equal to the length of that array and to the number of
input texts, and `dimensions` 1024. -/
theorem success_response_shape (encode : Encode)
    (hEnc : ∀ (texts normalize : Json) (batchSize : Option Json)
      (vs : List (List Int)),
      encode texts normalize batchSize = Except.ok vs →
      ∃ ts, texts = Json.arr ts ∧ vs.length = ts.length ∧
        ∀ v ∈ vs, v.length = 1024) :
    (∀ (fs : List (String × Json)) (t : Json) (ts : List Json)
      (r : HttpResponse),
      lookupField fs "text" = some t → normalizeText t = Json.arr ts →
      embed encode (Except.ok (Json.obj fs)) = r → r.status = 200 →
      ∃ ejs : List Json,
        r.body = Json.obj
          [ ("embeddings", Json.arr ejs),
            ("dimensions", Json.num 1024),
            ("count", Json.num ejs.length) ] ∧
        ejs.length = ts.length ∧
        ∀ e ∈ ejs, ∃ w : List Json, e = Json.arr w ∧ w.length = 1024) ∧
    (∀ (fs : List (String × Json)) (ts : List Json) (r : HttpResponse),
      lookupField fs "texts" = some (Json.arr ts) →
      embed_batch encode (Except.ok (Json.obj fs)) = r → r.status = 200 →
      ∃ ejs : List Json,
        r.body = Json.obj
          [ ("embeddings", Json.arr ejs),
            ("dimensions", Json.num 1024),
            ("count", Json.num ejs.length) ] ∧
        ejs.length = ts.length ∧
        ∀ e ∈ ejs, ∃ w : List Json, e = Json.arr w ∧ w.length = 1024) := by
  constructor
  · intro fs t ts r hget hnorm hrun hstat
    by_cases hf : pyFalsy t = true
    · rw [← hrun] at hstat
      simp [embed, hget, hf, errorResponse] at hstat
    · simp only [Bool.not_eq_true] at hf
      have hr : r = runEncode encode (normalizeText t)
          ((lookupField fs "normalize").getD (Json.bool true)) none := by
        rw [← hrun]; simp [embed, hget, hf]
      cases henc : encode (normalizeText t)
          ((lookupField fs "normalize").getD (Json.bool true)) none with
      | error e =>
        rw [hr] at hstat
        simp [runEncode, henc, errorResponse] at hstat
      | ok vs =>
        obtain ⟨ts2, harr, hlen, hv⟩ := hEnc _ _ _ _ henc
        rw [hnorm] at harr
        have hts2 : ts2 = ts := (Json.arr.inj harr).symm
        subst hts2
        refine ⟨vs.map vecToJson, ?_, ?_, ?_⟩
        · rw [hr]
          simp [runEncode, henc, successResponse]
        · rw [List.length_map]; exact hlen
        · intro e he
          obtain ⟨w, hw, hwe⟩ := List.mem_map.mp he
          exact ⟨w.map Json.num, by rw [← hwe]; rfl,
            by rw [List.length_map]; exact hv w hw⟩
  · intro fs ts r hget hrun hstat
    by_cases hf : pyFalsy (Json.arr ts) = true
    · rw [← hrun] at hstat
      simp [embed_batch, hget, hf, isList, errorResponse] at hstat
    · simp only [Bool.not_eq_true] at hf
      have hr : r = runEncode encode (Json.arr ts) (Json.bool true)
          (some ((lookupField fs "batch_size").getD (Json.num 32))) := by
        rw [← hrun]; simp [embed_batch, hget, hf, isList]
      cases henc : encode (Json.arr ts) (Json.bool true)
          (some ((lookupField fs "batch_size").getD (Json.num 32))) with
      | error e =>
        rw [hr] at hstat
        simp [runEncode, henc, errorResponse] at hstat
      | ok vs =>
        obtain ⟨ts2, harr, hlen, hv⟩ := hEnc _ _ _ _ henc
        have hts2 : ts2 = ts := (Json.arr.inj harr).symm
        subst hts2
        refine ⟨vs.map vecToJson, ?_, ?_, ?_⟩
        · rw [hr]
          simp [runEncode, henc, successResponse]
        · rw [List.length_map]; exact hlen
        · intro e he
          obtain ⟨w, hw, hwe⟩ := List.mem_map.mp he
          exact ⟨w.map Json.num, by rw [← hwe]; rfl,
            by rw [List.length_map]; exact hv w hw⟩

theorem success_response_shape_witness :
    ∃ ejs : List Json,
      (embed encodeStub (Except.ok (Json.obj [("text", Json.str "hi")]))).body =
        Json.obj
          [ ("embeddings", Json.arr ejs),
            ("dimensions", Json.num 1024),
            ("count", Json.num ejs.length) ] ∧
      ejs.length = [Json.str "hi"].length ∧
      ∀ e ∈ ejs, ∃ w : List Json, e = Json.arr w ∧ w.length = 1024 :=
  (success_response_shape encodeStub encodeStub_spec).1
    [("text", Json.str "hi")] (Json.str "hi") [Json.str "hi"] _ rfl rfl rfl rfl
